import Mathlib

/-!
Verification development for the natural-language-to-SQL chatbot backend.

The JavaScript sources (the express server file and the SQLGenerator
module) are embedded shallowly: strings are lists of characters, and the
JavaScript string operations used by the code (trim, toLowerCase,
toUpperCase, includes, startsWith, endsWith, match against the concrete
regular expressions appearing in the source) are translated into
executable Lean functions with the same behaviour on those inputs.
Scores accumulated in increments of 0.3 and 0.5 are represented exactly
in tenths (3 and 5) so that comparisons are exact.
-/

/-- Strings are modelled as lists of characters. -/
abbrev Str := List Char

def lstr (s : String) : Str := s.toList

/-- The single-quote character (written via its code point so that the
    string literals in this file stay free of quote characters). -/
def squo : Char := Char.ofNat 39

/-- The backtick character used by markdown code fences. -/
def btick : Char := Char.ofNat 96

/-- JavaScript whitespace test as used by trim and the regex class. -/
def isWS (c : Char) : Bool := c.isWhitespace

def toLowerL (s : Str) : Str := s.map Char.toLower
def toUpperL (s : Str) : Str := s.map Char.toUpper

/-- JavaScript String.prototype.trim. -/
def trimL (s : Str) : Str := ((s.dropWhile isWS).reverse.dropWhile isWS).reverse

/-- JavaScript String.prototype.startsWith. -/
def isPrefixOfB : Str → Str → Bool
  | [], _ => true
  | _ :: _, [] => false
  | a :: t, b :: u => a = b && isPrefixOfB t u

/-- JavaScript String.prototype.endsWith. -/
def isSuffixOfB (p s : Str) : Bool := isPrefixOfB p.reverse s.reverse

/-- JavaScript String.prototype.includes. -/
def isInfixOfB (p : Str) : Str → Bool
  | [] => isPrefixOfB p []
  | s@(_ :: t) => isPrefixOfB p s || isInfixOfB p t

/-- Number of occurrences of a character, as counted by match(/c/g). -/
def countCh (c : Char) : Str → Nat
  | [] => 0
  | a :: t => (if a = c then 1 else 0) + countCh c t

/-- The word-character class of the JavaScript regex escape. -/
def isWordChar (c : Char) : Bool :=
  decide ('a' ≤ c ∧ c ≤ 'z') || decide ('A' ≤ c ∧ c ≤ 'Z') ||
  decide ('0' ≤ c ∧ c ≤ '9') || c = '_'

/-- True when the position after a match is a word boundary. -/
def boundaryAfterL : Str → Bool
  | [] => true
  | c :: _ => !isWordChar c

/-- kw occurs at the head of s ending at a word boundary. -/
def wordAt (kw s : Str) : Bool :=
  isPrefixOfB kw s && boundaryAfterL (s.drop kw.length)

/-- Scan for a whole-word occurrence; prevW records whether the previous
    character was a word character (start of string counts as a boundary). -/
def containsWordAux (kw : Str) : Str → Bool → Bool
  | [], _ => false
  | c :: t, prevW => (!prevW && wordAt kw (c :: t)) || containsWordAux kw t (isWordChar c)

/-- Case-insensitive whole-word containment: the test performed by the
    regexes of the shape backslash-b KEYWORD backslash-b with flag i. -/
def containsWordCI (kw s : Str) : Bool := containsWordAux (toLowerL kw) (toLowerL s) false

/-- Scan for an occurrence of kw starting at a word boundary with no
    boundary requirement after it (the sp underscore test). -/
def containsWordStartAux (kw : Str) : Str → Bool → Bool
  | [], _ => false
  | c :: t, prevW => (!prevW && isPrefixOfB kw (c :: t)) || containsWordStartAux kw t (isWordChar c)

def containsWordStartCI (kw s : Str) : Bool :=
  containsWordStartAux (toLowerL kw) (toLowerL s) false

/-! ## isSafeSelect (server file)

Embedding of the function isSafeSelect: reject empty input, count
semicolons on the trimmed lowercased text (more than one, or a single
one that is not final, rejects), require a select or with prefix, and
reject when any forbidden keyword followed by a space occurs. -/

def forbiddenSpaced : List Str :=
  [lstr "insert ", lstr "update ", lstr "delete ", lstr "drop ", lstr "alter ",
   lstr "create ", lstr "truncate ", lstr "exec ", lstr "merge ", lstr "grant ",
   lstr "revoke "]

def isSafeSelect (sqlText : Str) : Bool :=
  if sqlText = [] then false
  else
    let lowered := toLowerL (trimL sqlText)
    let semicolonCount := countCh ';' lowered
    if semicolonCount > 1 then false
    else if semicolonCount = 1 ∧ isSuffixOfB [';'] lowered = false then false
    else if ¬ (isPrefixOfB (lstr "select") lowered = true ∨
               isPrefixOfB (lstr "with") lowered = true) then false
    else if forbiddenSpaced.any (fun kw => isInfixOfB kw lowered) = true then false
    else true

/-! ## validateSqlSafety (SQLGenerator module)

Embedding of the method validateSqlSafety: trim, require a SELECT or
WITH word prefix (case-insensitive, regex anchored with a word
boundary), reject the whole-word forbidden keywords INSERT, UPDATE,
DELETE, DROP, ALTER, CREATE, TRUNCATE, EXEC, EXECUTE, the comment
markers, xp_cmdshell, any sp_ prefixed name, and over-long text. -/

namespace SqlGen

def forbiddenWordRegexes : List Str :=
  [lstr "insert", lstr "update", lstr "delete", lstr "drop", lstr "alter",
   lstr "create", lstr "truncate", lstr "exec", lstr "execute"]

def validateSqlSafety (sqlText : Str) : Bool :=
  if sqlText = [] then false
  else
    let s := trimL sqlText
    if ¬ (wordAt (lstr "select") (toLowerL s) = true ∨
          wordAt (lstr "with") (toLowerL s) = true) then false
    else if forbiddenWordRegexes.any (fun kw => containsWordCI kw s) = true then false
    else if isInfixOfB (lstr "--") s = true then false
    else if isInfixOfB (lstr ";--") s = true then false
    else if containsWordCI (lstr "xp_cmdshell") s = true then false
    else if containsWordStartCI (lstr "sp_") s = true then false
    else if s.length > 20000 then false
    else true

end SqlGen

/-! ## Markdown fence removal and validateAndCleanSql (server file)

The function validateAndCleanSql first performs the global replacement
of the regex: three backticks, then a run of word characters, then an
optional newline, each occurrence replaced by the empty string, scanning
left to right over the original text.  It then trims, requires an upper
cased SELECT or WITH prefix, and rejects when a dangerous keyword
surrounded by spaces occurs, returning the fixed fallback statement on
any rejection. -/

/-- The fixed fallback statement returned on every failure path. -/
def fallbackSql : Str := lstr "SELECT TOP (0) * FROM SalesReport_Form_Input"

/-- Does the text start with three backticks (a fence opening)? -/
def fenceAt (s : Str) : Bool :=
  match s with
  | a :: b :: c :: _ => a = btick && b = btick && c = btick
  | _ => false

/-- Text remaining after one fence match: drop the three backticks, the
    greedy run of word characters, and one optional newline. -/
def afterFence (s : Str) : Str :=
  let r1 := (s.drop 3).dropWhile isWordChar
  match r1 with
  | d :: t => if d = '\n' then t else r1
  | [] => []

/-- The global fence replacement, scanning left to right, written with a
    length fuel so that it computes by structural recursion; each step
    strictly shrinks the text, so a fuel of the length plus one is never
    exhausted. -/
def stripFencesF : Nat → Str → Str
  | 0, _ => []
  | _ + 1, [] => []
  | fuel + 1, a :: rest =>
    if fenceAt (a :: rest) = true then stripFencesF fuel (afterFence (a :: rest))
    else a :: stripFencesF fuel rest

def stripFences (s : Str) : Str := stripFencesF (s.length + 1) s

def dangerousKeywords : List Str :=
  [lstr "DROP", lstr "DELETE", lstr "UPDATE", lstr "INSERT", lstr "ALTER",
   lstr "CREATE", lstr "TRUNCATE"]

/-- Embedding of validateAndCleanSql.  The second JavaScript parameter
    expectedTable is never read by the function body and is omitted. -/
def validateAndCleanSql (sqlIn : Str) : Str :=
  if sqlIn = [] then fallbackSql
  else
    let sql := trimL (stripFences sqlIn)
    if ¬ (isPrefixOfB (lstr "SELECT") (toUpperL sql) = true ∨
          isPrefixOfB (lstr "WITH") (toUpperL sql) = true) then fallbackSql
    else if dangerousKeywords.any
        (fun kw => isInfixOfB (' ' :: (kw ++ [' '])) (toUpperL sql)) = true then fallbackSql
    else sql

/-! ## SQLGenerator orchestrator (schema cache, schema check, generate) -/

namespace SqlGen

/-- A schema snapshot: table name together with its column names (the
    data types carried alongside in the source are never consulted by
    checkSqlAgainstSchema and are omitted). -/
abbrev Schema := List (Str × List Str)

/-- Outcome of one awaited external call: the underlying promise either
    rejects (throws) or resolves with a value. -/
inductive Lookup (α : Type) where
  | throws
  | returns (a : α)
deriving DecidableEq

/-- State of the generator relevant to one call: the in-memory cached
    schema and whether it is within its time-to-live; the outcome of the
    redis get when a client is configured (none models the absence of a
    redis client, some throws a rejecting get, some (returns none) a
    miss or unparseable entry, some (returns (some s)) a hit); whether a
    database configuration is present; and the outcome of the live
    refresh (refreshSchemaFromDb), whose connect or query can fail. -/
structure GenState where
  memSchema : Option Schema
  memFresh : Bool
  redis : Option (Lookup (Option Schema))
  dbConfig : Bool
  dbRefresh : Lookup Schema

/-- Embedding of the method _getCachedSchema: fresh memory first, then
    the redis get (whose rejection propagates), then a live refresh when
    a database configuration exists (whose failure propagates), finally
    the stale memory value or null. -/
def _getCachedSchema (st : GenState) : Except Unit (Option Schema) :=
  if st.memSchema.isSome ∧ st.memFresh = true then Except.ok st.memSchema
  else
    match st.redis with
    | some Lookup.throws => Except.error ()
    | some (Lookup.returns (some s)) => Except.ok (some s)
    | _ =>
      if st.dbConfig then
        match st.dbRefresh with
        | Lookup.throws => Except.error ()
        | Lookup.returns schema => Except.ok (some schema)
      else Except.ok st.memSchema

/-- Identifier tokenization of checkSqlAgainstSchema: the regex one
    letter or underscore followed by one or more word characters, all
    matches, uppercased (length fuel, never exhausted). -/
def tokenizeIdentsF : Nat → Str → List Str
  | 0, _ => []
  | _ + 1, [] => []
  | fuel + 1, c :: t =>
    if (c.isAlpha || c = '_') = true then
      let run := t.takeWhile isWordChar
      if run.length ≥ 1 then
        toUpperL (c :: run) :: tokenizeIdentsF fuel (t.dropWhile isWordChar)
      else tokenizeIdentsF fuel t
    else tokenizeIdentsF fuel t

def tokenizeIdents (s : Str) : List Str := tokenizeIdentsF (s.length + 1) s

def allowedIdents : List Str :=
  [lstr "SELECT", lstr "SUM", lstr "AVG", lstr "MIN", lstr "MAX", lstr "COUNT",
   lstr "FROM", lstr "WHERE", lstr "AND", lstr "OR", lstr "ON", lstr "JOIN",
   lstr "LEFT", lstr "RIGHT", lstr "INNER", lstr "OUTER", lstr "GROUP",
   lstr "ORDER", lstr "BY", lstr "AS", lstr "CAST", lstr "REPLACE",
   lstr "DECIMAL", lstr "TOP", lstr "WITH", lstr "IS", lstr "NULL",
   lstr "NOT", lstr "IN", lstr "BETWEEN", lstr "LIKE", lstr "CASE",
   lstr "WHEN", lstr "THEN", lstr "ELSE", lstr "END", lstr "HAVING",
   lstr "LIMIT", lstr "DISTINCT", lstr "COALESCE"]

/-- The token test of checkSqlAgainstSchema against a present schema. -/
def checkTokens (schema : Schema) (sqlText : Str) : Bool :=
  let known := schema.foldl (fun acc tc => acc ++ [toUpperL tc.1] ++ tc.2.map toUpperL) []
  ((tokenizeIdents sqlText).eraseDups).all
    (fun tk => allowedIdents.contains tk || known.contains tk)

/-- Embedding of checkSqlAgainstSchema: the await of _getCachedSchema is
    not guarded, so its rejection propagates; with no schema available
    the check accepts every candidate. -/
def checkSqlAgainstSchema (st : GenState) (sqlText : Str) : Except Unit Bool :=
  match _getCachedSchema st with
  | Except.error e => Except.error e
  | Except.ok none => Except.ok true
  | Except.ok (some schema) => Except.ok (checkTokens schema sqlText)

/-- Whitespace-run collapsing (length fuel, never exhausted). -/
def collapseWsF : Nat → Str → Str
  | 0, _ => []
  | _ + 1, [] => []
  | fuel + 1, c :: t =>
    if isWS c = true then ' ' :: collapseWsF fuel (t.dropWhile isWS)
    else c :: collapseWsF fuel t

/-- Embedding of normalizePrompt: trim and collapse whitespace runs. -/
def normalizePrompt (s : Str) : Str := collapseWsF ((trimL s).length + 1) (trimL s)

/-- The outcome of one call to the pluggable LLM client: either the
    promise rejects, or it resolves with an optional message content
    (none models a missing choices, message or content field). -/
inductive LLMOutcome where
  | throws
  | returns (content : Option Str)

/-- Trailing semicolon removal of step 7: the replace of the regex
    whitespace run, semicolon run, whitespace run anchored at the end,
    which removes the longest such suffix containing a semicolon. -/
def stripTrailingSemis (s : Str) : Str :=
  match s.reverse.dropWhile isWS with
  | c :: r1t =>
    if c = ';' then
      (((c :: r1t).dropWhile (fun d => d = ';')).dropWhile isWS).reverse
    else s
  | [] => s

/-- Embedding of the method generateSqlFromPrompt.  The prompt only
    shapes the messages sent to the LLM client, which is modelled as the
    universally quantified outcome llm.  The step two schema read for the
    prompt text is guarded by a catch and so never propagates (its value
    only shapes the message text), but the schema-conformance step calls
    checkSqlAgainstSchema without a guard, so a rejection there is
    returned as an error, exactly as the source throws. -/
def generateSqlFromPrompt (userPrompt : Str) (llm : LLMOutcome) (st : GenState)
    (enforceSchemaCheck : Bool) : Except Unit Str :=
  let _normalized := normalizePrompt userPrompt
  let _schemaDesc : Option Schema :=
    match _getCachedSchema st with
    | Except.ok v => v
    | Except.error _ => none
  match llm with
  | .throws => Except.ok fallbackSql
  | .returns content =>
    let sqlText := trimL (content.getD [])
    if sqlText = [] then Except.ok fallbackSql
    else if validateSqlSafety sqlText = false then Except.ok fallbackSql
    else if enforceSchemaCheck = true then
      match checkSqlAgainstSchema st sqlText with
      | Except.error e => Except.error e
      | Except.ok false => Except.ok fallbackSql
      | Except.ok true => Except.ok (stripTrailingSemis sqlText)
    else Except.ok (stripTrailingSemis sqlText)

end SqlGen

/-! ## Matchers for the concrete regular expressions of the analyzer

Each regex appearing in the source is translated into a dedicated
scanner.  Scanning is left to right, returning the leftmost match, with
alternatives tried in their source order; greedy repetition is used
exactly where the regex engine would commit to it (each repetition in
these patterns is followed by a character its class cannot match, so
greedy matching never needs to give length back, except for the
optional ordinal suffix and the one-or-two digit day, where the
backtracking alternatives are tried explicitly). -/

/-- A piece of a simple pattern: a literal (already lowercased) or a
    whitespace run (one or more). -/
inductive Tok where
  | lit (w : Str)
  | wsp

/-- Match a token sequence at the head of s, returning consumed length. -/
def matchToksAt : List Tok → Str → Option Nat
  | [], _ => some 0
  | .lit w :: ts, s =>
    if isPrefixOfB w s = true then (matchToksAt ts (s.drop w.length)).map (w.length + ·)
    else none
  | .wsp :: ts, s =>
    let n := (s.takeWhile isWS).length
    if n = 0 then none else (matchToksAt ts (s.drop n)).map (n + ·)

/-- Leftmost match of a token sequence: position and length. -/
def scanToks (ts : List Tok) : Str → Nat → Option (Nat × Nat)
  | [], i => (matchToksAt ts []).map (fun n => (i, n))
  | c :: t, i =>
    match matchToksAt ts (c :: t) with
    | some n => some (i, n)
    | none => scanToks ts t (i + 1)

def testToks (ts : List Tok) (low : Str) : Bool := (scanToks ts low 0).isSome

/-- Pattern of two literals separated by mandatory whitespace. -/
def pw (a b : String) : List Tok := [.lit (lstr a), .wsp, .lit (lstr b)]

/-- Same with a trailing mandatory whitespace run. -/
def pwT (a b : String) : List Tok := [.lit (lstr a), .wsp, .lit (lstr b), .wsp]

def monthNames : List Str :=
  [lstr "january", lstr "february", lstr "march", lstr "april", lstr "may",
   lstr "june", lstr "july", lstr "august", lstr "september", lstr "october",
   lstr "november", lstr "december"]

/-- First month-name alternative matching at the head of a lowercased text. -/
def monthAt (s : Str) : Option Str := monthNames.find? (fun m => isPrefixOfB m s)

def scanMonthPos : Str → Nat → Option (Nat × Nat)
  | [], _ => none
  | s@(_ :: t), i =>
    match monthAt s with
    | some m => some (i, m.length)
    | none => scanMonthPos t (i + 1)

/-- Leftmost case-insensitive month name, returned as the slice of the
    original text (the way match picks it up from the subject string). -/
def scanMonthOrig (orig : Str) : Option Str :=
  (scanMonthPos (toLowerL orig) 0).map (fun pn => (orig.drop pn.1).take pn.2)

/-- Exactly four digits at the head (no boundary requirement). -/
def digits4At (s : Str) : Option Str :=
  match s with
  | a :: b :: c :: d :: _ =>
    if a.isDigit = true ∧ b.isDigit = true ∧ c.isDigit = true ∧ d.isDigit = true then
      some [a, b, c, d]
    else none
  | _ => none

/-- A year of the shape pfx plus two digits bracketed by word
    boundaries; the boundary before is checked by the caller. -/
def yearBoundAt (pfx : Str) (s : Str) : Option Str :=
  match s with
  | a :: b :: c :: d :: rest =>
    if [a, b] = pfx ∧ c.isDigit = true ∧ d.isDigit = true ∧ boundaryAfterL rest = true then
      some [a, b, c, d]
    else none
  | _ => none

def scanYearB (pfx : Str) : Str → Bool → Option Str
  | [], _ => none
  | c :: t, prevW =>
    match (if prevW = false then yearBoundAt pfx (c :: t) else none) with
    | some y => some y
    | none => scanYearB pfx t (isWordChar c)

/-- Rule of four digits, whitespace, month name. -/
def rule1At (s : Str) : Option (Str × Str) :=
  match digits4At s with
  | none => none
  | some y =>
    let s1 := s.drop 4
    let n := (s1.takeWhile isWS).length
    if n = 0 then none
    else (monthAt (s1.drop n)).map (fun m => (y, m))

def scanRule1 : Str → Option (Str × Str)
  | [] => none
  | s@(_ :: t) =>
    match rule1At s with
    | some r => some r
    | none => scanRule1 t

/-- Alternation of relative words, whitespace, then a literal. -/
def relAt (words : List Str) (litw : Str) (s : Str) : Option Str :=
  match words.find? (fun w => isPrefixOfB w s) with
  | none => none
  | some w =>
    let s1 := s.drop w.length
    let n := (s1.takeWhile isWS).length
    if n = 0 then none
    else if isPrefixOfB litw (s1.drop n) = true then some w else none

def scanRel (words : List Str) (litw : Str) : Str → Option Str
  | [] => none
  | s@(_ :: t) =>
    match relAt words litw s with
    | some w => some w
    | none => scanRel words litw t

/-- Rule of letter q, a digit one to four, whitespace, four digits. -/
def rule4At (s : Str) : Option (Str × Str)  :=
  match s with
  | c :: d :: rest =>
    if c = 'q' ∧ decide ('1' ≤ d ∧ d ≤ '4') = true then
      let n := (rest.takeWhile isWS).length
      if n = 0 then none
      else (digits4At (rest.drop n)).map (fun y => ([d], y))
    else none
  | _ => none

def scanRule4 : Str → Option (Str × Str)
  | [] => none
  | s@(_ :: t) =>
    match rule4At s with
    | some r => some r
    | none => scanRule4 t

/-- Length of the optional ordinal suffix st, nd, rd or th. -/
def suffixLen (s : Str) : Nat :=
  if isPrefixOfB (lstr "st") s = true ∨ isPrefixOfB (lstr "nd") s = true ∨
     isPrefixOfB (lstr "rd") s = true ∨ isPrefixOfB (lstr "th") s = true then 2 else 0

/-- Comma, mandatory whitespace, four digits; returns the digits. -/
def commaWsYear (s : Str) : Option Str :=
  match s with
  | c :: rest =>
    if c = ',' then
      let n := (rest.takeWhile isWS).length
      if n = 0 then none else digits4At (rest.drop n)
    else none
  | [] => none

/-- Optional suffix (greedy, with the backtracking alternative of
    skipping it) followed by comma, whitespace, year. -/
def sufComma (s : Str) : Option Str :=
  let k := suffixLen s
  match commaWsYear (s.drop k) with
  | some y => some y
  | none => if k ≠ 0 then commaWsYear s else none

/-- One or two digits (two preferred), suffix, comma, year. -/
def day12Year (s : Str) : Option (Str × Str) :=
  let two : Option (Str × Str) :=
    match s with
    | a :: b :: rest =>
      if a.isDigit = true ∧ b.isDigit = true then
        (sufComma rest).map (fun y => ([a, b], y))
      else none
    | _ => none
  match two with
  | some r => some r
  | none =>
    match s with
    | a :: rest => if a.isDigit = true then (sufComma rest).map (fun y => ([a], y)) else none
    | [] => none

/-- Rule of month name, whitespace, day, optional suffix, comma,
    whitespace, four-digit year; yields month, day digits, year digits. -/
def rule5At (s : Str) : Option (Str × Str × Str) :=
  match monthAt s with
  | none => none
  | some m =>
    let s1 := s.drop m.length
    let n := (s1.takeWhile isWS).length
    if n = 0 then none
    else (day12Year (s1.drop n)).map (fun dy => (m, dy.1, dy.2))

def scanRule5 : Str → Option (Str × Str × Str)
  | [] => none
  | s@(_ :: t) =>
    match rule5At s with
    | some r => some r
    | none => scanRule5 t

/-- Mandatory whitespace run, returning the rest. -/
def wsPlusR (s : Str) : Option Str :=
  let n := (s.takeWhile isWS).length
  if n = 0 then none else some (s.drop n)

/-- Optional suffix then mandatory whitespace, with backtracking. -/
def sufWsR (s : Str) : Option Str :=
  let k := suffixLen s
  match wsPlusR (s.drop k) with
  | some r => some r
  | none => if k ≠ 0 then wsPlusR s else none

/-- One or two digits, optional suffix, mandatory whitespace; yields the
    digits and the rest. -/
def dayThenSufWs (s : Str) : Option (Str × Str) :=
  let two : Option (Str × Str) :=
    match s with
    | a :: b :: rest =>
      if a.isDigit = true ∧ b.isDigit = true then
        (sufWsR rest).map (fun r => ([a, b], r))
      else none
    | _ => none
  match two with
  | some r => some r
  | none =>
    match s with
    | a :: rest => if a.isDigit = true then (sufWsR rest).map (fun r => ([a], r)) else none
    | [] => none

/-- The explicit date range rule: from, month, day, to, month, day, year. -/
def rule17At (s : Str) : Option (Str × Str × Str × Str × Str) :=
  if isPrefixOfB (lstr "from") s = true then
    match wsPlusR (s.drop 4) with
    | none => none
    | some s1 =>
      match monthAt s1 with
      | none => none
      | some m1 =>
        match wsPlusR (s1.drop m1.length) with
        | none => none
        | some s2 =>
          match dayThenSufWs s2 with
          | none => none
          | some (d1, s3) =>
            if isPrefixOfB (lstr "to") s3 = true then
              match wsPlusR (s3.drop 2) with
              | none => none
              | some s4 =>
                match monthAt s4 with
                | none => none
                | some m2 =>
                  match wsPlusR (s4.drop m2.length) with
                  | none => none
                  | some s5 =>
                    match dayThenSufWs s5 with
                    | none => none
                    | some (d2, s6) =>
                      (digits4At s6).map (fun y => (m1, d1, m2, d2, y))
            else none
  else none

def scanRule17 : Str → Option (Str × Str × Str × Str × Str)
  | [] => none
  | s@(_ :: t) =>
    match rule17At s with
    | some r => some r
    | none => scanRule17 t

/-! ## Time range detection (detectTimeRangeEnhanced) -/

def natOfDigits (d : Str) : Nat := d.foldl (fun n c => n * 10 + (c.toNat - 48)) 0

def natDigits (n : Nat) : Str := Nat.toDigits 10 n

/-- JavaScript toString padded with padStart(2, zero). -/
def pad2 (n : Nat) : Str := if n < 10 then '0' :: natDigits n else natDigits n

/-- One-based month number as computed through the Date constructor. -/
def monthNumber (m : Str) : Nat := monthNames.findIdx (fun x => x == m) + 1

/-- Capitalisation used in the month-year condition: first character
    uppercased, rest lowercased. -/
def capMonth (m : Str) : Str :=
  match m with
  | [] => []
  | c :: t => Char.toUpper c :: toLowerL t

def monthYearCond (y m : Str) : Str :=
  lstr "MONTH_REPORTED = " ++ squo :: (capMonth m ++ [squo]) ++
  lstr " AND YEAR_REPORTED = " ++ squo :: (y ++ [squo])

def lastMonthCond : Str :=
  lstr "MONTH_REPORTED = DATENAME(MONTH, DATEADD(MONTH, -1, GETDATE())) AND YEAR_REPORTED = YEAR(DATEADD(MONTH, -1, GETDATE()))"

def thisMonthCond : Str :=
  lstr "MONTH_REPORTED = DATENAME(MONTH, GETDATE()) AND YEAR_REPORTED = YEAR(GETDATE())"

def yearCond (y : Str) : Str := lstr "YEAR_REPORTED = " ++ squo :: (y ++ [squo])

def quarterYearCond (q y : Str) : Str :=
  lstr "DATEPART(QUARTER, DATE_REPORTED) = " ++ q ++
  lstr " AND YEAR(DATE_REPORTED) = " ++ y

def dateCond (d : Str) : Str :=
  lstr "CAST(DATE_REPORTED AS DATE) = " ++ squo :: (d ++ [squo])

def ytdCond : Str :=
  lstr "DATE_REPORTED >= DATEFROMPARTS(YEAR(GETDATE()), 1, 1) AND DATE_REPORTED <= GETDATE()"

def mtdCond : Str :=
  lstr "DATE_REPORTED >= DATEFROMPARTS(YEAR(GETDATE()), MONTH(GETDATE()), 1) AND DATE_REPORTED <= GETDATE()"

/-- Offset rendering of the relative year handler. -/
def relYearOffset (rel : Str) : Str :=
  if rel = lstr "last" then lstr "-1" else if rel = lstr "next" then lstr "1" else lstr "0"

def relYearCond (rel : Str) : Str :=
  lstr "YEAR_REPORTED = YEAR(DATEADD(YEAR, " ++ relYearOffset rel ++ lstr ", GETDATE()))"

def relQuarterOffset (rel : Str) : Str :=
  if rel = lstr "last" then lstr "-1" else lstr "0"

def relQuarterCond (rel : Str) : Str :=
  lstr "DATEPART(QUARTER, DATE_REPORTED) = DATEPART(QUARTER, DATEADD(QUARTER, " ++
  relQuarterOffset rel ++
  lstr ", GETDATE())) AND YEAR(DATE_REPORTED) = YEAR(DATEADD(QUARTER, " ++
  relQuarterOffset rel ++ lstr ", GETDATE()))"

def todayCond : Str := lstr "CAST(DATE_REPORTED AS DATE) = CAST(GETDATE() AS DATE)"

def yesterdayCond : Str :=
  lstr "CAST(DATE_REPORTED AS DATE) = CAST(DATEADD(DAY, -1, GETDATE()) AS DATE)"

def dayBeforeYesterdayCond : Str :=
  lstr "CAST(DATE_REPORTED AS DATE) = CAST(DATEADD(DAY, -2, GETDATE()) AS DATE)"

def thisWeekCond : Str :=
  lstr "DATE_REPORTED >= DATEADD(DAY, 1 - DATEPART(WEEKDAY, GETDATE()), CAST(GETDATE() AS DATE)) AND DATE_REPORTED < DATEADD(DAY, 8 - DATEPART(WEEKDAY, GETDATE()), CAST(GETDATE() AS DATE))"

def lastWeekCond : Str :=
  lstr "DATE_REPORTED >= DATEADD(DAY, 1 - DATEPART(WEEKDAY, DATEADD(DAY, -7, GETDATE())), CAST(DATEADD(DAY, -7, GETDATE()) AS DATE)) AND DATE_REPORTED < DATEADD(DAY, 8 - DATEPART(WEEKDAY, DATEADD(DAY, -7, GETDATE())), CAST(DATEADD(DAY, -7, GETDATE()) AS DATE))"

def last7DaysCond : Str :=
  lstr "DATE_REPORTED >= DATEADD(DAY, -7, GETDATE()) AND DATE_REPORTED < GETDATE()"

def last30DaysCond : Str :=
  lstr "DATE_REPORTED >= DATEADD(DAY, -30, GETDATE()) AND DATE_REPORTED < GETDATE()"

def betweenCond (s e : Str) : Str :=
  lstr "CAST(DATE_REPORTED AS DATE) BETWEEN " ++ squo :: (s ++ [squo]) ++
  lstr " AND " ++ squo :: (e ++ [squo])

/-- The tagged time range value: one constructor per rule of the ordered
    list, carrying the handler payload (the source returns an untagged
    object; the constructor records which rule produced it). -/
inductive TimeRange where
  | specific_month_year (year month sqlCondition : Str)
  | relative_month (relative sqlCondition : Str)
  | specific_year (year sqlCondition : Str)
  | quarter_year (quarter year sqlCondition : Str)
  | specific_date (date sqlCondition : Str)
  | ytd (sqlCondition : Str)
  | mtd (sqlCondition : Str)
  | relative_year (relative sqlCondition : Str)
  | relative_quarter (relative sqlCondition : Str)
  | today (sqlCondition : Str)
  | yesterday (sqlCondition : Str)
  | day_before_yesterday (sqlCondition : Str)
  | this_week (sqlCondition : Str)
  | last_week (sqlCondition : Str)
  | last_7_days (sqlCondition : Str)
  | last_30_days (sqlCondition : Str)
  | custom_range (startDate endDate sqlCondition : Str)
deriving DecidableEq

/-- Discriminator used when comparing a detected range with the
    month-plus-year shape. -/
def TimeRange.isSpecificMonthYear : TimeRange → Bool
  | .specific_month_year _ _ _ => true
  | _ => false

/-- Embedding of detectTimeRangeEnhanced: the ordered rule list with
    first match winning.  The generic four-digit-year rule is the third
    entry, exactly as in the source. -/
def detectTimeRangeEnhanced (prompt : Str) : Option TimeRange :=
  let low := toLowerL prompt
  if let some ym := scanRule1 low then
    some (.specific_month_year ym.1 ym.2 (monthYearCond ym.1 ym.2))
  else if let some rel := scanRel [lstr "last", lstr "this", lstr "next"] (lstr "month") low then
    some (.relative_month rel (if rel = lstr "last" then lastMonthCond else thisMonthCond))
  else if let some y := scanYearB (lstr "20") low false then
    some (.specific_year y (yearCond y))
  else if let some qy := scanRule4 low then
    some (.quarter_year qy.1 qy.2 (quarterYearCond qy.1 qy.2))
  else if let some mdy := scanRule5 low then
    let ds := mdy.2.2 ++ '-' :: pad2 (monthNumber mdy.1) ++ '-' :: pad2 (natOfDigits mdy.2.1)
    some (.specific_date ds (dateCond ds))
  else if isInfixOfB (lstr "ytd") low = true ∨ isInfixOfB (lstr "year to date") low = true ∨
          isInfixOfB (lstr "this year so far") low = true then
    some (.ytd ytdCond)
  else if isInfixOfB (lstr "mtd") low = true ∨ isInfixOfB (lstr "month to date") low = true ∨
          isInfixOfB (lstr "this month so far") low = true then
    some (.mtd mtdCond)
  else if let some rel := scanRel [lstr "last", lstr "this", lstr "next"] (lstr "year") low then
    some (.relative_year rel (relYearCond rel))
  else if let some rel := scanRel [lstr "last", lstr "this"] (lstr "quarter") low then
    some (.relative_quarter rel (relQuarterCond rel))
  else if isInfixOfB (lstr "today") low = true then some (.today todayCond)
  else if isInfixOfB (lstr "yesterday") low = true then some (.yesterday yesterdayCond)
  else if isInfixOfB (lstr "day before yesterday") low = true then
    some (.day_before_yesterday dayBeforeYesterdayCond)
  else if isInfixOfB (lstr "this week") low = true then some (.this_week thisWeekCond)
  else if isInfixOfB (lstr "last week") low = true then some (.last_week lastWeekCond)
  else if isInfixOfB (lstr "last 7 days") low = true ∨ isInfixOfB (lstr "past week") low = true then
    some (.last_7_days last7DaysCond)
  else if isInfixOfB (lstr "last 30 days") low = true ∨ isInfixOfB (lstr "past month") low = true then
    some (.last_30_days last30DaysCond)
  else if let some r := scanRule17 low then
    let s1 := r.2.2.2.2 ++ '-' :: pad2 (monthNumber r.1) ++ '-' :: pad2 (natOfDigits r.2.1)
    let s2 := r.2.2.2.2 ++ '-' :: pad2 (monthNumber r.2.2.1) ++ '-' :: pad2 (natOfDigits r.2.2.2.1)
    some (.custom_range s1 s2 (betweenCond s1 s2))
  else none

/-! ## Column mapping patterns -/

/-- Comma, whitespace, four digits bounded by a word boundary after;
    returns the consumed length. -/
def commaWsYear4B (s : Str) : Option Nat :=
  match s with
  | c :: rest =>
    if c = ',' then
      let n := (rest.takeWhile isWS).length
      if n = 0 then none
      else
        match rest.drop n with
        | a :: b :: c2 :: d :: r2 =>
          if a.isDigit = true ∧ b.isDigit = true ∧ c2.isDigit = true ∧ d.isDigit = true ∧
             boundaryAfterL r2 = true then some (1 + n + 4)
          else none
        | _ => none
    else none
  | [] => none

def sufCommaB (s : Str) : Option Nat :=
  let k := suffixLen s
  match commaWsYear4B (s.drop k) with
  | some n => some (k + n)
  | none => if k ≠ 0 then commaWsYear4B s else none

/-- One or two digits, optional suffix, comma, whitespace, four digits,
    boundary; consumed length. -/
def dayTailB (s : Str) : Option Nat :=
  let two : Option Nat :=
    match s with
    | a :: b :: rest =>
      if a.isDigit = true ∧ b.isDigit = true then (sufCommaB rest).map (2 + ·) else none
    | _ => none
  match two with
  | some n => some n
  | none =>
    match s with
    | a :: rest => if a.isDigit = true then (sufCommaB rest).map (1 + ·) else none
    | [] => none

/-- The dated-phrase column pattern: a word, whitespace, day, optional
    suffix, comma, whitespace, a four digit year (boundary before is
    checked by the scanner). -/
def colDateAt (s : Str) : Option Nat :=
  let w := s.takeWhile isWordChar
  if w.length = 0 then none
  else
    let s1 := s.drop w.length
    let n := (s1.takeWhile isWS).length
    if n = 0 then none
    else (dayTailB (s1.drop n)).map (fun m => w.length + n + m)

/-- The shapes of regexes used as column detection patterns. -/
inductive ColPat where
  | toks (ts : List Tok)
  | monthName
  | yearB (pfx : Str)
  | qDigit
  | dateComma

def colPatAt (p : ColPat) (prevW : Bool) (s : Str) : Option Nat :=
  match p with
  | .toks ts => matchToksAt ts s
  | .monthName => (monthAt s).map List.length
  | .yearB pfx => if prevW = false then (yearBoundAt pfx s).map List.length else none
  | .qDigit =>
    match s with
    | c :: d :: _ => if c = 'q' ∧ decide ('1' ≤ d ∧ d ≤ '4') = true then some 2 else none
    | _ => none
  | .dateComma => if prevW = false then colDateAt s else none

/-- Leftmost match of a column pattern on the lowercased prompt,
    threading the word-boundary context; position and length. -/
def scanColPat (p : ColPat) : Str → Bool → Nat → Option (Nat × Nat)
  | [], _, _ => none
  | c :: t, prevW, i =>
    match colPatAt p prevW (c :: t) with
    | some n => some (i, n)
    | none => scanColPat p t (isWordChar c) (i + 1)

/-! ## Table and column mappings (static configuration) -/

structure TableEntry where
  key : Str
  table : Str
  synonyms : List Str
  patterns : List (List Tok)

def salesMapping : TableEntry :=
  { key := lstr "sales"
    table := lstr "SalesReport_Form_Input"
    synonyms := [lstr "sales", lstr "sale", lstr "sold", lstr "deal", lstr "deals",
                 lstr "transaction", lstr "revenue", lstr "gross", lstr "purchase"]
    patterns := [pwT "sales" "by", pwT "sales" "for", pwT "deals" "by",
                 pw "count" "deals", pw "count" "sales"] }

def inventoryMapping : TableEntry :=
  { key := lstr "inventory"
    table := lstr "Common_Group_401_Vehicle_Inventory"
    synonyms := [lstr "inventory", lstr "stock", lstr "vehicles", lstr "available",
                 lstr "on hand"]
    patterns := [] }

def rvacMapping : TableEntry :=
  { key := lstr "rvac"
    table := lstr "SaleWarranty_RVAC_CONTRACTS"
    synonyms := [lstr "rvac", lstr "warranty", lstr "contract", lstr "service contract",
                 lstr "extended warranty"]
    patterns := [] }

def TABLE_MAPPINGS : List TableEntry := [salesMapping, inventoryMapping, rvacMapping]

/-- The detected-table record with the confidence in tenths. -/
structure DetectedTable where
  table : Str
  confidence : Nat
  key : Str
deriving DecidableEq

/-- Confidence accumulated for one entry: three tenths per synonym found
    as a case-insensitive substring, five tenths per matching pattern. -/
def tableScore (prompt : Str) (e : TableEntry) : Nat :=
  3 * (e.synonyms.countP (fun syn => isInfixOfB (toLowerL syn) (toLowerL prompt))) +
  5 * (e.patterns.countP (fun p => testToks p (toLowerL prompt)))

/-- Table detection: start from the sales default at five tenths and
    replace it only on a strictly greater score. -/
def detectTable (prompt : Str) : DetectedTable :=
  TABLE_MAPPINGS.foldl
    (fun best e =>
      let c := tableScore prompt e
      if c > best.confidence then { table := e.table, confidence := c, key := e.key }
      else best)
    { table := lstr "SalesReport_Form_Input", confidence := 5, key := lstr "sales" }

/-- A column-mapping entry; fn is the aggregate function field (the
    related field of the month entry is never read and is omitted). -/
structure ColEntry where
  key : Str
  column : Str
  fn : Option Str
  synonyms : List Str
  patterns : List ColPat

def COLUMN_MAPPINGS : List ColEntry :=
  [{ key := lstr "dealership", column := lstr "DEALER_LOCATION", fn := none
     synonyms := [lstr "dealership", lstr "dealer", lstr "location", lstr "store",
                  lstr "branch", lstr "by location", lstr "per location"]
     patterns := [.toks (pw "by" "location"), .toks (pw "per" "location"),
                  .toks (pw "location" "wise")] },
   { key := lstr "gross", column := lstr "TOTAL_COST", fn := some (lstr "SUM")
     synonyms := [lstr "gross", lstr "total cost", lstr "revenue", lstr "amount",
                  lstr "price", lstr "cost", lstr "total", lstr "total gross"]
     patterns := [.toks (pw "total" "cost"), .toks (pw "total" "gross")] },
   { key := lstr "front_gross", column := lstr "FRONT_COST", fn := some (lstr "SUM")
     synonyms := [lstr "front gross", lstr "front cost", lstr "front",
                  lstr "front profit", lstr "front margin"]
     patterns := [.toks (pw "front" "gross"), .toks (pw "front" "cost")] },
   { key := lstr "fi_gross", column := lstr "FI_COST", fn := some (lstr "SUM")
     synonyms := [lstr "fi gross", lstr "fi cost", lstr "finance income",
                  lstr "fi income", lstr "finance gross", lstr "backend gross"]
     patterns := [.toks (pw "fi" "gross"), .toks (pw "fi" "cost"),
                  .toks (pw "finance" "income")] },
   { key := lstr "count", column := lstr "ID", fn := some (lstr "COUNT")
     synonyms := [lstr "count", lstr "number", lstr "how many", lstr "total deals",
                  lstr "total sales"]
     patterns := [.toks [.lit (lstr "count")], .toks [.lit (lstr "number of")],
                  .toks [.lit (lstr "how many")]] },
   { key := lstr "month", column := lstr "MONTH_REPORTED", fn := none
     synonyms := [lstr "month", lstr "monthly", lstr "last month", lstr "this month",
                  lstr "mtd", lstr "january", lstr "february", lstr "march",
                  lstr "april", lstr "may", lstr "june", lstr "july", lstr "august",
                  lstr "september", lstr "october", lstr "november", lstr "december"]
     patterns := [.monthName] },
   { key := lstr "year", column := lstr "YEAR_REPORTED", fn := none
     synonyms := [lstr "year", lstr "yearly", lstr "annual", lstr "last year",
                  lstr "this year", lstr "ytd", lstr "year to date"]
     patterns := [.yearB (lstr "20"), .yearB (lstr "19"), .toks [.lit (lstr "year")],
                  .toks [.lit (lstr "ytd")], .toks [.lit (lstr "annual")]] },
   { key := lstr "quarter", column := lstr "DATEPART(QUARTER, DATE_REPORTED)", fn := none
     synonyms := [lstr "quarter", lstr "quarterly", lstr "q1", lstr "q2", lstr "q3",
                  lstr "q4"]
     patterns := [.qDigit, .toks [.lit (lstr "quarter")], .toks [.lit (lstr "quarterly")]] },
   { key := lstr "day", column := lstr "DATE_REPORTED", fn := none
     synonyms := [lstr "day", lstr "daily", lstr "today", lstr "yesterday", lstr "date",
                  lstr "specific date", lstr "day before yesterday"]
     patterns := [.toks [.lit (lstr "today")], .toks [.lit (lstr "yesterday")],
                  .toks [.lit (lstr "day before yesterday")], .dateComma,
                  .toks [.lit (lstr "daily")]] },
   { key := lstr "week", column := lstr "DATE_REPORTED", fn := none
     synonyms := [lstr "week", lstr "weekly", lstr "this week", lstr "last week",
                  lstr "week to date"]
     patterns := [.toks [.lit (lstr "week")], .toks [.lit (lstr "weekly")]] }]

/-! ## Value extraction (extractValueFromPrompt) -/

def stopWords : List Str :=
  [lstr "for", lstr "in", lstr "by", lstr "with", lstr "and", lstr "the",
   lstr "a", lstr "an"]

/-- Leftmost quoted value: a double-quoted or single-quoted non-empty
    run, alternatives tried at each position in that order. -/
def scanQuoted : Str → Option Str
  | [] => none
  | c :: t =>
    if c = '"' then
      match t.dropWhile (fun x => x != '"') with
      | _ :: _ =>
        let content := t.takeWhile (fun x => x != '"')
        if content = [] then scanQuoted t else some content
      | [] => scanQuoted t
    else if c = squo then
      match t.dropWhile (fun x => x != squo) with
      | _ :: _ =>
        let content := t.takeWhile (fun x => x != squo)
        if content = [] then scanQuoted t else some content
      | [] => scanQuoted t
    else scanQuoted t

/-- JavaScript String.prototype.indexOf. -/
def indexOfAux (needle : Str) : Str → Nat → Option Nat
  | [], i => if isPrefixOfB needle [] = true then some i else none
  | c :: t, i =>
    if isPrefixOfB needle (c :: t) = true then some i
    else indexOfAux needle t (i + 1)

/-- Split on whitespace runs, accumulating the current word; this is
    split on a whitespace-run regex applied to an already trimmed
    string, which is the only way the source uses it (the split is
    always preceded by a trim). -/
def splitWsAux : Str → Str → List Str
  | [], acc => if acc = [] then [] else [acc.reverse]
  | c :: t, acc =>
    if isWS c = true then
      if acc = [] then splitWsAux t [] else acc.reverse :: splitWsAux t []
    else splitWsAux t (c :: acc)

def splitWs (s : Str) : List Str := splitWsAux s []

/-- The word-list step: first word unless it is a stop word, else the
    second word when present. -/
def wordsValue (words : List Str) : Option Str :=
  match words with
  | [] => none
  | w0 :: rest =>
    if stopWords.contains (toLowerL w0) = false then some w0
    else
      match rest with
      | w1 :: _ => some w1
      | [] => none

/-- Embedding of extractValueFromPrompt. -/
def extractValueFromPrompt (prompt keyword : Str) (matchedPattern : Option Str) :
    Option Str :=
  let promptLower := toLowerL prompt
  let keywordLower := toLowerL keyword
  let fromPattern : Option Str :=
    match matchedPattern with
    | none => none
    | some mp =>
      if keywordLower = lstr "year" then scanYearB (lstr "20") mp false
      else if keywordLower = lstr "month" then scanMonthOrig mp
      else none
  match fromPattern with
  | some v => some v
  | none =>
    match scanQuoted prompt with
    | some q => some q
    | none =>
      match indexOfAux keywordLower promptLower 0 with
      | none => none
      | some idx =>
        let after := prompt.drop (idx + keyword.length)
        let words := splitWs (trimL after)
        let yearSp : Option Str :=
          if isInfixOfB (lstr "year") keywordLower = true then
            scanYearB (lstr "20") after false
          else none
        match yearSp with
        | some y => some y
        | none =>
          let monthSp : Option Str :=
            if isInfixOfB (lstr "month") keywordLower = true then scanMonthOrig after
            else none
          match monthSp with
          | some m => some m
          | none => wordsValue words

/-! ## Group-by detection and aggregate aliases -/

def groupPatterns : List (List Tok × Str) :=
  [(pw "by" "location", lstr "DEALER_LOCATION"),
   (pw "by" "month", lstr "MONTH_REPORTED"),
   (pw "by" "year", lstr "YEAR_REPORTED"),
   (pw "by" "dealer", lstr "DEALER_LOCATION"),
   (pw "per" "location", lstr "DEALER_LOCATION"),
   (pw "by" "quarter", lstr "DATEPART(QUARTER, DATE_REPORTED)"),
   (pw "by" "week", lstr "DATEPART(WEEK, DATE_REPORTED)"),
   (pw "by" "day", lstr "CAST(DATE_REPORTED AS DATE)")]

/-- Embedding of detectGroupBy: ordered pattern list, first match wins,
    then the residual location checks, else no grouping. -/
def detectGroupBy (prompt : Str) : Option Str :=
  let promptLower := toLowerL prompt
  match groupPatterns.find? (fun gp => testToks gp.1 promptLower) with
  | some gp => some gp.2
  | none =>
    if isInfixOfB (lstr "by location") promptLower = true ∨
       isInfixOfB (lstr "per location") promptLower = true then
      some (lstr "DEALER_LOCATION")
    else none

def capFirst (s : Str) : Str :=
  match s with
  | [] => []
  | c :: t => Char.toUpper c :: t

/-- Embedding of getAggregateAlias. -/
def getAggregateAlias (concept : Str) : Str :=
  if concept = lstr "count" then lstr "TotalDeals"
  else if concept = lstr "gross" then lstr "TotalGross"
  else if concept = lstr "front_gross" then lstr "FrontGross"
  else if concept = lstr "fi_gross" then lstr "FIGross"
  else if concept = lstr "total_cost" then lstr "TotalCost"
  else capFirst concept

/-! ## Prompt analysis (analyzeUserPrompt) -/

structure FilterRec where
  column : Str
  concept : Str
  value : Option Str
  isAggregate : Bool
deriving DecidableEq

structure AggRec where
  column : Str
  fn : Str
  aliasName : Str
deriving DecidableEq

structure Presentation where
  format : Str
  groupBy : Option Str
deriving DecidableEq

structure AnalysisResult where
  table : DetectedTable
  filters : List FilterRec
  aggregates : List AggRec
  timeRange : Option TimeRange
  presentation : Presentation
deriving DecidableEq

/-- Records contributed by one column-mapping entry: every matching
    pattern pushes a record; only when no pattern matched, the first
    synonym found as a substring pushes one. -/
def entryRecords (prompt : Str) (e : ColEntry) : List FilterRec × List AggRec :=
  let promptLower := toLowerL prompt
  let hits := e.patterns.filterMap
    (fun p => (scanColPat p promptLower false 0).map
      (fun pn => (prompt.drop pn.1).take pn.2))
  if hits = [] then
    match e.synonyms.find? (fun syn => isInfixOfB (toLowerL syn) promptLower) with
    | some syn =>
      ([{ column := e.column, concept := e.key
          value := extractValueFromPrompt prompt syn none
          isAggregate := e.fn.isSome }],
       match e.fn with
       | some f => [{ column := e.column, fn := f, aliasName := getAggregateAlias e.key }]
       | none => [])
    | none => ([], [])
  else
    (hits.map (fun m0 =>
       { column := e.column, concept := e.key
         value := extractValueFromPrompt prompt (e.synonyms.headD []) (some m0)
         isAggregate := e.fn.isSome }),
     match e.fn with
     | some f => hits.map (fun _ => { column := e.column, fn := f, aliasName := getAggregateAlias e.key })
     | none => [])

def tableFormatTest (prompt : Str) : Bool :=
  testToks (pw "table" "format") (toLowerL prompt) ||
  isInfixOfB (lstr "tabular") (toLowerL prompt) ||
  isInfixOfB (lstr "grid") (toLowerL prompt) ||
  isInfixOfB (lstr "spreadsheet") (toLowerL prompt)

/-- Embedding of analyzeUserPrompt. -/
def analyzeUserPrompt (prompt : Str) : AnalysisResult :=
  let promptLower := toLowerL prompt
  let table := detectTable prompt
  let fa := COLUMN_MAPPINGS.foldl
    (fun acc e =>
      let r := entryRecords prompt e
      (acc.1 ++ r.1, acc.2 ++ r.2))
    ([], [])
  let aggregates :=
    if isInfixOfB (lstr "count") promptLower = true ∧
       fa.2.any (fun a => a.fn = lstr "COUNT") = false then
      fa.2 ++ [{ column := lstr "ID", fn := lstr "COUNT", aliasName := lstr "TotalDeals" }]
    else fa.2
  { table := table
    filters := fa.1.filter (fun f => !f.isAggregate)
    aggregates := aggregates
    timeRange := detectTimeRangeEnhanced prompt
    presentation := { format := if tableFormatTest prompt = true then lstr "table" else lstr "default"
                      groupBy := detectGroupBy prompt } }

/-! ## Visualization heuristic of the query endpoint

The handler first scans the prompt against the ordered chart-keyword
patterns (word-bounded alternations), then, when the result set is
non-empty and no explicit chart type was found, inspects the first row:
a date-like column name plus a numeric-looking column selects line, a
numeric-looking column with at most three columns selects bar, anything
else selects table; an empty result set leaves the value untouched. -/

/-- A cell value of the first record: a JavaScript number, a string, or
    null (over which String conversion never looks numeric). -/
inductive SqlValue where
  | vnum
  | vstr (s : Str)
  | vnull
deriving DecidableEq

/-- A row as the first element of the recordset: column names with values. -/
abbrev Row := List (Str × SqlValue)

/-- The regex of one unsigned integer or decimal numeric string. -/
def numStrPat (s : Str) : Bool :=
  let d1 := s.takeWhile Char.isDigit
  let r := s.dropWhile Char.isDigit
  decide (d1 ≠ []) &&
    (decide (r = []) ||
      (match r with
       | c :: r2 => c = '.' && decide (r2 ≠ []) && r2.all Char.isDigit
       | [] => false))

/-- The numeric-looking test of the handler: a number value, or a string
    matching the numeric pattern (String of null never matches). -/
def numericLooking : SqlValue → Bool
  | .vnum => true
  | .vstr s => numStrPat s
  | .vnull => false

/-- The date-like column name test: date, month, year or time as a
    case-insensitive substring. -/
def dateNamePat (c : Str) : Bool :=
  let lc := toLowerL c
  isInfixOfB (lstr "date") lc || isInfixOfB (lstr "month") lc ||
  isInfixOfB (lstr "year") lc || isInfixOfB (lstr "time") lc

def hasDateCol (row : Row) : Bool := (row.map Prod.fst).any dateNamePat

def numericCols (row : Row) : Row := row.filter (fun p => numericLooking p.2)

/-- Literal alternative inside a chart pattern. -/
def litAt (w : Str) (s : Str) : Option Nat :=
  if isPrefixOfB w s = true then some w.length else none

/-- Alternative of two literals separated by optional whitespace. -/
def glueAt (a b : Str) (s : Str) : Option Nat :=
  if isPrefixOfB a s = true then
    let s1 := s.drop a.length
    let n := (s1.takeWhile isWS).length
    if isPrefixOfB b (s1.drop n) = true then some (a.length + n + b.length) else none
  else none

/-- Try the alternatives in order at one position, each bracketed by the
    trailing word boundary. -/
def altAt (alts : List (Str → Option Nat)) (s : Str) : Option Nat :=
  match alts with
  | [] => none
  | f :: rest =>
    match f s with
    | some n => if boundaryAfterL (s.drop n) = true then some n else altAt rest s
    | none => altAt rest s

/-- Scan for a word-bounded alternation. -/
def scanBAlt (alts : List (Str → Option Nat)) : Str → Bool → Bool
  | [], _ => false
  | c :: t, prevW =>
    (!prevW && (altAt alts (c :: t)).isSome) || scanBAlt alts t (isWordChar c)

/-- The ordered chart patterns of the handler with their chart types. -/
def chartPatterns : List (List (Str → Option Nat) × Str) :=
  [([glueAt (lstr "bar") (lstr "chart"), litAt (lstr "barchart"),
     glueAt (lstr "bar") (lstr "graph")], lstr "bar"),
   ([glueAt (lstr "line") (lstr "chart"), litAt (lstr "linechart"),
     glueAt (lstr "line") (lstr "graph")], lstr "line"),
   ([glueAt (lstr "pie") (lstr "chart"), litAt (lstr "piechart"),
     glueAt (lstr "pie") (lstr "graph")], lstr "pie"),
   ([litAt (lstr "table"), litAt (lstr "tabular"),
     glueAt (lstr "data") (lstr "table")], lstr "table")]

/-- First chart pattern matching the prompt, else the empty string. -/
def chartKeyword (prompt : Str) : Str :=
  match chartPatterns.find? (fun cp => scanBAlt cp.1 (toLowerL prompt) false) with
  | some cp => cp.2
  | none => []

/-- Embedding of the visualization choice of the query handler. -/
def chooseViz (prompt : Str) (recordset : List Row) : Str :=
  let chartType := chartKeyword prompt
  match recordset with
  | [] => chartType
  | row0 :: _ =>
    if chartType = [] then
      if hasDateCol row0 = true ∧ 1 ≤ (numericCols row0).length then lstr "line"
      else if 1 ≤ (numericCols row0).length ∧ row0.length ≤ 3 then lstr "bar"
      else lstr "table"
    else chartType

/-- Presence of three consecutive backticks somewhere in a text (the
    condition under which the fence regex can match at all). -/
def hasTriple : Str → Bool
  | [] => false
  | c :: t => fenceAt (c :: t) || hasTriple t

/-! # Lemmas about the string primitives -/

theorem dropWhile_head_false {p : Char → Bool} :
    ∀ {l : Str} {c : Char} {t : Str}, l.dropWhile p = c :: t → p c = false := by
  intro l
  induction l with
  | nil => intro c t h; simp [List.dropWhile] at h
  | cons a u ih =>
    intro c t h
    rw [List.dropWhile_cons] at h
    by_cases hp : p a = true
    · rw [if_pos hp] at h
      exact ih h
    · rw [if_neg hp] at h
      cases h
      simpa using hp

theorem dropWhile_idem (p : Char → Bool) (l : Str) :
    (l.dropWhile p).dropWhile p = l.dropWhile p := by
  cases h : l.dropWhile p with
  | nil => simp
  | cons c t =>
    have hc := dropWhile_head_false h
    rw [List.dropWhile_cons]
    simp [hc]

theorem dropWhile_nil_forall {p : Char → Bool} :
    ∀ {l : Str}, l.dropWhile p = [] → ∀ x ∈ l, p x = true := by
  intro l
  induction l with
  | nil => intro _ x hx; simp at hx
  | cons a u ih =>
    intro h x hx
    rw [List.dropWhile_cons] at h
    by_cases hp : p a = true
    · simp only [hp, if_true] at h
      rcases List.mem_cons.mp hx with hx | hx
      · rw [hx]; exact hp
      · exact ih h x hx
    · simp [hp] at h

theorem trimL_decomp (s : Str) :
    s.dropWhile isWS = trimL s ++ ((s.dropWhile isWS).reverse.takeWhile isWS).reverse := by
  conv_lhs => rw [← List.reverse_reverse (s.dropWhile isWS),
    ← List.takeWhile_append_dropWhile (p := isWS) (l := (s.dropWhile isWS).reverse)]
  rw [List.reverse_append]
  rfl

theorem trimL_head_false {s : Str} {c : Char} {t : Str} (h : trimL s = c :: t) :
    isWS c = false := by
  have hd := trimL_decomp s
  rw [h] at hd
  exact dropWhile_head_false hd

theorem trimL_reverse_eq (s : Str) :
    (trimL s).reverse = ((s.dropWhile isWS).reverse).dropWhile isWS := by
  unfold trimL
  rw [List.reverse_reverse]

theorem trimL_idem (s : Str) : trimL (trimL s) = trimL s := by
  cases h : trimL s with
  | nil => rfl
  | cons c t =>
    have hc : isWS c = false := trimL_head_false h
    have e1 : (c :: t).dropWhile isWS = c :: t := by
      rw [List.dropWhile_cons]; simp [hc]
    have e2 : (c :: t).reverse.dropWhile isWS = (c :: t).reverse := by
      have hr : (trimL s).reverse = ((s.dropWhile isWS).reverse).dropWhile isWS :=
        trimL_reverse_eq s
      rw [h] at hr
      rw [hr, dropWhile_idem]
    show (((c :: t).dropWhile isWS).reverse.dropWhile isWS).reverse = c :: t
    rw [e1, e2, List.reverse_reverse]

/-! # Claim C1: forbidden-keyword rejection -/

/-- C1 counterexample: the claim that both validators reject every text
    containing a forbidden keyword as a whole word is false.  The text
    select drop contains drop as a whole word, yet isSafeSelect accepts
    it (its check looks for the keyword followed by a space); the text
    select merge contains merge as a whole word, yet validateSqlSafety
    accepts it (merge, grant and revoke are absent from its list). -/
theorem C1_counterexample :
    containsWordCI (lstr "drop") (lstr "select drop") = true ∧
    isSafeSelect (lstr "select drop") = true ∧
    containsWordCI (lstr "merge") (lstr "select merge") = true ∧
    SqlGen.validateSqlSafety (lstr "select merge") = true := by decide

/-- C1 amended: isSafeSelect rejects every candidate whose lowercased
    trimmed text contains a forbidden keyword immediately followed by a
    space character, and validateSqlSafety rejects every candidate whose
    trimmed text contains insert, update, delete, drop, alter, create,
    truncate or exec as a whole word, case-insensitively; merge, grant
    and revoke are not checked by validateSqlSafety, and keyword
    occurrences not followed by a space are not checked by isSafeSelect. -/
theorem C1_amended :
    (∀ (s kw : Str), kw ∈ forbiddenSpaced →
       isInfixOfB kw (toLowerL (trimL s)) = true → isSafeSelect s = false) ∧
    (∀ (s kw : Str),
       kw ∈ [lstr "insert", lstr "update", lstr "delete", lstr "drop",
             lstr "alter", lstr "create", lstr "truncate", lstr "exec"] →
       containsWordCI kw (trimL s) = true → SqlGen.validateSqlSafety s = false) := by
  constructor
  · intro s kw hmem h
    simp only [isSafeSelect]
    split_ifs <;> try rfl
    exact absurd (List.any_eq_true.mpr ⟨kw, hmem, h⟩) (by assumption)
  · intro s kw hmem h
    have hmem9 : kw ∈ SqlGen.forbiddenWordRegexes := by
      fin_cases hmem <;> decide
    simp only [SqlGen.validateSqlSafety]
    split_ifs <;> try rfl
    exact absurd (List.any_eq_true.mpr ⟨kw, hmem9, h⟩) (by assumption)

/-- C1 witness for the amended theorem at concrete inputs. -/
theorem C1_amended_witness :
    isSafeSelect (lstr "select insert into t") = false ∧
    SqlGen.validateSqlSafety (lstr "select delete") = false :=
  ⟨C1_amended.1 (lstr "select insert into t") (lstr "insert ") (by decide) (by decide),
   C1_amended.2 (lstr "select delete") (lstr "delete") (by decide) (by decide)⟩

/-! # Claim C2: single-statement enforcement of isSafeSelect -/

/-- C2: isSafeSelect rejects every candidate whose trimmed lowercased
    text contains more than one semicolon, and every candidate with
    exactly one semicolon that is not the final character; a single
    trailing semicolon is tolerated, and the embedded multi-statement
    injection text is rejected. -/
theorem C2_isSafeSelect_single_statement :
    ∀ s : Str,
      (1 < countCh ';' (toLowerL (trimL s)) → isSafeSelect s = false) ∧
      (countCh ';' (toLowerL (trimL s)) = 1 →
        isSuffixOfB [';'] (toLowerL (trimL s)) = false → isSafeSelect s = false) ∧
      isSafeSelect
        (lstr "SELECT * FROM SalesReport_Form_Input; DROP TABLE Users; --") = false ∧
      isSafeSelect (lstr "select * from SalesReport_Form_Input;") = true := by
  intro s
  refine ⟨?_, ?_, by decide, by decide⟩
  · intro h
    simp only [isSafeSelect]
    split_ifs <;> rfl
  · intro h1 h2
    have hc : countCh ';' (toLowerL (trimL s)) = 1 ∧
        isSuffixOfB [';'] (toLowerL (trimL s)) = false := ⟨h1, h2⟩
    simp only [isSafeSelect]
    split_ifs <;> rfl

/-- C2 witness at a concrete input with one non-final semicolon. -/
theorem C2_witness : isSafeSelect (lstr "select 1; update t") = false :=
  (C2_isSafeSelect_single_statement (lstr "select 1; update t")).2.1 (by decide) (by decide)

/-! # Claim C10: schema gate with no snapshot available -/

/-- C10: when no database configuration exists, nothing is cached in
    memory and the external cache yields nothing (absent client, miss or
    unparseable entry), _getCachedSchema yields null and
    checkSqlAgainstSchema accepts every candidate text. -/
theorem C10_schema_gate_open :
    ∀ (st : SqlGen.GenState) (sqlText : Str),
      st.memSchema = none → st.dbConfig = false →
      (st.redis = none ∨ st.redis = some (SqlGen.Lookup.returns none)) →
      SqlGen._getCachedSchema st = Except.ok none ∧
      SqlGen.checkSqlAgainstSchema st sqlText = Except.ok true := by
  intro st sql h1 h2 h3
  have hg : SqlGen._getCachedSchema st = Except.ok none := by
    unfold SqlGen._getCachedSchema
    rcases h3 with h3 | h3 <;> simp [h1, h2, h3]
  refine ⟨hg, ?_⟩
  unfold SqlGen.checkSqlAgainstSchema
  rw [hg]

/-- C10 witness: a state with no snapshot accepts a text full of unknown
    identifiers. -/
theorem C10_witness :
    SqlGen.checkSqlAgainstSchema
      { memSchema := none, memFresh := false, redis := none,
        dbConfig := false, dbRefresh := SqlGen.Lookup.throws }
      (lstr "SELECT UNKNOWN_COL FROM UNKNOWN_TABLE") = Except.ok true :=
  (C10_schema_gate_open _ _ rfl rfl (Or.inl rfl)).2

/-! # Claim C7: table detection scoring -/

/-- C7: the running best is replaced only on a strictly greater score,
    so on equal inventory and rvac scores the later rvac entry is never
    chosen, and whenever no entry scores strictly above the default five
    tenths, the sales default with confidence five tenths is returned;
    in particular a single synonym hit worth three tenths for a
    non-sales table keeps the sales default. -/
theorem C7_table_detection :
    ∀ prompt : Str,
      (tableScore prompt inventoryMapping = tableScore prompt rvacMapping →
        (detectTable prompt).key ≠ lstr "rvac") ∧
      (tableScore prompt salesMapping ≤ 5 → tableScore prompt inventoryMapping ≤ 5 →
        tableScore prompt rvacMapping ≤ 5 →
        detectTable prompt =
          { table := lstr "SalesReport_Form_Input", confidence := 5, key := lstr "sales" }) := by
  intro prompt
  unfold detectTable TABLE_MAPPINGS
  simp only [List.foldl_cons, List.foldl_nil]
  constructor
  · intro heq
    split_ifs <;> dsimp only at * <;> first | decide | omega
  · intro hs hi hr
    split_ifs <;> dsimp only at * <;> first | rfl | omega

/-- C7 witness: the prompt stock scores three tenths for the inventory
    entry only, and the sales default is kept. -/
theorem C7_witness :
    detectTable (lstr "stock") =
      { table := lstr "SalesReport_Form_Input", confidence := 5, key := lstr "sales" } :=
  (C7_table_detection (lstr "stock")).2 (by decide) (by decide) (by decide)

/-! # Claim C9: visualization choice -/

/-- C9: an explicit chart keyword in the prompt always wins; with no
    keyword and a non-empty result, a date-like column name with a
    numeric-looking value selects line, a numeric-looking value with at
    most three columns selects bar, otherwise table; an empty result
    returns the previously set, possibly empty, keyword value; and the
    month-plus-gross scenario selects line. -/
theorem C9_visualization :
    ∀ (prompt : Str) (recordset : List Row) (row0 : Row) (rows : List Row),
      (chartKeyword prompt ≠ [] → chooseViz prompt recordset = chartKeyword prompt) ∧
      (chooseViz prompt [] = chartKeyword prompt) ∧
      (chartKeyword prompt = [] → hasDateCol row0 = true → 1 ≤ (numericCols row0).length →
        chooseViz prompt (row0 :: rows) = lstr "line") ∧
      (chartKeyword prompt = [] → ¬(hasDateCol row0 = true ∧ 1 ≤ (numericCols row0).length) →
        1 ≤ (numericCols row0).length → row0.length ≤ 3 →
        chooseViz prompt (row0 :: rows) = lstr "bar") ∧
      (chartKeyword prompt = [] → ¬(hasDateCol row0 = true ∧ 1 ≤ (numericCols row0).length) →
        ¬(1 ≤ (numericCols row0).length ∧ row0.length ≤ 3) →
        chooseViz prompt (row0 :: rows) = lstr "table") ∧
      chooseViz (lstr "Show total gross by dealership for October 2025")
        [[(lstr "MONTH_REPORTED", SqlValue.vstr (lstr "October")),
          (lstr "TotalGross", SqlValue.vnum)]] = lstr "line" := by
  intro prompt recordset row0 rows
  refine ⟨?_, rfl, ?_, ?_, ?_, by decide⟩
  · intro h
    unfold chooseViz
    cases recordset with
    | nil => rfl
    | cons r rs => simp [h]
  · intro h h1 h2
    unfold chooseViz
    simp only [h]
    rw [if_pos trivial, if_pos ⟨h1, h2⟩]
  · intro h hn h1 h2
    unfold chooseViz
    simp only [h]
    rw [if_pos trivial, if_neg hn, if_pos ⟨h1, h2⟩]
  · intro h hn1 hn2
    unfold chooseViz
    simp only [h]
    rw [if_pos trivial, if_neg hn1, if_neg hn2]

/-- C9 witness: an explicit bar-chart keyword wins over an empty result. -/
theorem C9_witness :
    chooseViz (lstr "show a bar chart of deals") [] = lstr "bar" := by
  have h := (C9_visualization (lstr "show a bar chart of deals") [] [] []).1 (by decide)
  rw [h]
  decide

/-! # Claim C5: ordering of the time-range rules -/

/-- C5 counterexample: the claim that the generic four-digit-year rule
    is ordered last is false: the prompt Q1 2025 matches the quarter
    rule, yet detection returns the generic specific-year variant,
    because the year rule is third and is evaluated before the quarter
    rule. -/
theorem C5_counterexample :
    scanRule4 (toLowerL (lstr "Q1 2025")) = some (lstr "1", lstr "2025") ∧
    detectTimeRangeEnhanced (lstr "Q1 2025") =
      some (.specific_year (lstr "2025") (yearCond (lstr "2025"))) := by decide

/-- C5 amended: detection is first-match-wins over the ordered list, but
    the generic year rule is third, directly after the year-month rule
    and the relative-month rule; every prompt rejected by those two
    rules in which a word-bounded four-digit year of the two thousands
    occurs yields the specific-year variant, even when the quarter,
    specific-date or range rules would also match. -/
theorem C5_amended :
    ∀ prompt : Str,
      scanRule1 (toLowerL prompt) = none →
      scanRel [lstr "last", lstr "this", lstr "next"] (lstr "month") (toLowerL prompt) = none →
      ∀ y : Str, scanYearB (lstr "20") (toLowerL prompt) false = some y →
      detectTimeRangeEnhanced prompt = some (.specific_year y (yearCond y)) := by
  intro prompt h1 h2 y h3
  unfold detectTimeRangeEnhanced
  simp [h1, h2, h3]

/-- C5 witness for the amended theorem. -/
theorem C5_amended_witness :
    detectTimeRangeEnhanced (lstr "gross for 2024") =
      some (.specific_year (lstr "2024") (yearCond (lstr "2024"))) :=
  C5_amended (lstr "gross for 2024") (by decide) (by decide) (lstr "2024") (by decide)

/-! # Claim C4: the October 2025 scenario -/

/-- C4 counterexample: for the scenario prompt the detected time range
    is the generic specific-year variant carrying 2025, not the claimed
    month-plus-year variant: the year-month rule only matches a year
    followed by a month name, and the generic year rule fires first. -/
theorem C4_counterexample :
    (analyzeUserPrompt (lstr "Show total gross by dealership for October 2025")).timeRange =
      some (.specific_year (lstr "2025") (yearCond (lstr "2025"))) ∧
    ((analyzeUserPrompt (lstr "Show total gross by dealership for October 2025")).timeRange.map
      TimeRange.isSpecificMonthYear) = some false := by decide

/-- C4 amended: for the prompt the analyzer returns the sales table at
    confidence six tenths, a single SUM aggregate on TOTAL_COST aliased
    TotalGross, group-by DEALER_LOCATION, and the specific-year time
    range carrying 2025. -/
theorem C4_amended :
    (analyzeUserPrompt (lstr "Show total gross by dealership for October 2025")).table =
      { table := lstr "SalesReport_Form_Input", confidence := 6, key := lstr "sales" } ∧
    (analyzeUserPrompt (lstr "Show total gross by dealership for October 2025")).aggregates =
      [{ column := lstr "TOTAL_COST", fn := lstr "SUM", aliasName := lstr "TotalGross" }] ∧
    (analyzeUserPrompt (lstr "Show total gross by dealership for October 2025")).presentation.groupBy =
      some (lstr "DEALER_LOCATION") ∧
    (analyzeUserPrompt (lstr "Show total gross by dealership for October 2025")).timeRange =
      some (.specific_year (lstr "2025") (yearCond (lstr "2025"))) := by decide

/-! # Claim C6: the count deals this month scenario -/

/-- C6: for the prompt count deals this month, the aggregate list is
    exactly one COUNT entry on column ID aliased TotalDeals, and the
    time range is the relative-month variant carrying this. -/
theorem C6_count_deals_scenario :
    (analyzeUserPrompt (lstr "count deals this month")).aggregates =
      [{ column := lstr "ID", fn := lstr "COUNT", aliasName := lstr "TotalDeals" }] ∧
    (analyzeUserPrompt (lstr "count deals this month")).timeRange =
      some (.relative_month (lstr "this") thisMonthCond) := by decide

/-! # Claim C3: the orchestrator never fails -/

/-- Every text accepted by validateSqlSafety is non-empty and starts,
    after trimming, with a select or with word. -/
theorem validateSqlSafety_true_facts {s : Str} (h : SqlGen.validateSqlSafety s = true) :
    s ≠ [] ∧ (wordAt (lstr "select") (toLowerL (trimL s)) = true ∨
              wordAt (lstr "with") (toLowerL (trimL s)) = true) := by
  constructor
  · intro he
    rw [he] at h
    exact absurd h (by decide)
  · by_contra hn
    simp only [SqlGen.validateSqlSafety] at h
    split_ifs at h

/-- The head character of a text that starts with a given lowercase word. -/
theorem wordAt_head {kw s : Str} {w : Char} (hkw : kw.head? = some w)
    (h : wordAt kw (toLowerL s) = true) :
    ∃ c t, s = c :: t ∧ Char.toLower c = w := by
  have hp : isPrefixOfB kw (toLowerL s) = true := by
    unfold wordAt at h
    rw [Bool.and_eq_true] at h
    exact h.1
  cases kw with
  | nil => simp at hkw
  | cons a k =>
    have haw : a = w := by simpa using hkw
    cases s with
    | nil => simp [toLowerL, isPrefixOfB] at hp
    | cons c t =>
      refine ⟨c, t, rfl, ?_⟩
      simp only [toLowerL, List.map_cons, isPrefixOfB, Bool.and_eq_true] at hp
      rw [← haw]
      exact (of_decide_eq_true hp.1).symm

/-- A character whose lowercase form is the letter s or w is neither
    whitespace nor a semicolon. -/
theorem head_facts_of_lower {c : Char}
    (h : Char.toLower c = 's' ∨ Char.toLower c = 'w') :
    isWS c = false ∧ c ≠ ';' := by
  constructor
  · by_contra hws
    rw [Bool.not_eq_false] at hws
    have h4 : ((c = ' ' ∨ c = '\t') ∨ c = '\r') ∨ c = '\n' := by
      simpa [isWS, Char.isWhitespace] using hws
    rcases h4 with ((h4 | h4) | h4) | h4 <;> subst h4 <;>
      rcases h with h | h <;> exact absurd h (by decide)
  · intro he
    subst he
    rcases h with h | h <;> exact absurd h (by decide)

/-- Trailing-semicolon removal keeps a text non-empty when its head is
    neither whitespace nor a semicolon. -/
theorem stripTrailingSemis_ne_nil {c : Char} {t : Str}
    (hws : isWS c = false) (hsemi : c ≠ ';') :
    SqlGen.stripTrailingSemis (c :: t) ≠ [] := by
  unfold SqlGen.stripTrailingSemis
  cases hr1 : ((c :: t).reverse.dropWhile isWS) with
  | nil => simp
  | cons d r1t =>
    dsimp only
    by_cases hd : d = ';'
    · rw [if_pos hd]
      intro hcontra
      rw [List.reverse_eq_nil_iff] at hcontra
      have hcmem : c ∈ (c :: t).reverse := by simp
      have hsplit1 : (c :: t).reverse =
          ((c :: t).reverse.takeWhile isWS) ++ (d :: r1t) := by
        rw [← hr1, List.takeWhile_append_dropWhile]
      rw [hsplit1] at hcmem
      rcases List.mem_append.mp hcmem with hm | hm
      · exact absurd (List.mem_takeWhile_imp hm) (by simp [hws])
      · have hsplit2 : (d :: r1t) =
            ((d :: r1t).takeWhile (fun x => decide (x = ';'))) ++
            ((d :: r1t).dropWhile (fun x => decide (x = ';'))) :=
          (List.takeWhile_append_dropWhile _ _).symm
        rw [hsplit2] at hm
        rcases List.mem_append.mp hm with hm2 | hm2
        · have hpc := List.mem_takeWhile_imp hm2
          exact hsemi (of_decide_eq_true hpc)
        · exact absurd (dropWhile_nil_forall hcontra c hm2) (by simp [hws])
    · rw [if_neg hd]
      simp

/-- When the schema-cache lookup does not reject, the schema check
    resolves with a boolean. -/
theorem checkSql_ok {st : SqlGen.GenState}
    (h : SqlGen._getCachedSchema st ≠ Except.error ()) (x : Str) :
    ∃ b, SqlGen.checkSqlAgainstSchema st x = Except.ok b := by
  unfold SqlGen.checkSqlAgainstSchema
  cases hg : SqlGen._getCachedSchema st with
  | error e => cases e; exact absurd hg h
  | ok v =>
    cases v with
    | none => exact ⟨true, rfl⟩
    | some s => exact ⟨_, rfl⟩

/-- C3 counterexample: the orchestrator can fail.  With an empty memory
    cache and a redis client whose get rejects, the enforced schema
    check awaits _getCachedSchema without a guard, so the rejection
    propagates out of generateSqlFromPrompt even though the LLM returned
    a perfectly safe SELECT (shown accepted by validateSqlSafety). -/
theorem C3_counterexample :
    SqlGen.validateSqlSafety (lstr "SELECT TOP (1) ID FROM SalesReport_Form_Input") = true ∧
    SqlGen.generateSqlFromPrompt (lstr "total gross by dealership")
      (SqlGen.LLMOutcome.returns (some (lstr "SELECT TOP (1) ID FROM SalesReport_Form_Input")))
      { memSchema := none, memFresh := false, redis := some SqlGen.Lookup.throws,
        dbConfig := false, dbRefresh := SqlGen.Lookup.throws } true =
      Except.error () :=
  ⟨by decide, rfl⟩

/-- C3 amended: provided the schema-cache lookup does not itself reject,
    the orchestrator resolves, all enumerated failure paths of the LLM
    collaboration resolve to the fixed fallback statement (a rejected
    promise, a missing or blank message content, output rejected by the
    safety validation, and output rejected by the enforced schema
    check), and the result is never the empty string. -/
theorem C3_amended :
    ∀ (prompt : Str) (llm : SqlGen.LLMOutcome) (st : SqlGen.GenState) (enforce : Bool),
      SqlGen._getCachedSchema st ≠ Except.error () →
      (∃ out : Str,
        SqlGen.generateSqlFromPrompt prompt llm st enforce = Except.ok out ∧ out ≠ []) ∧
      (llm = SqlGen.LLMOutcome.throws →
        SqlGen.generateSqlFromPrompt prompt llm st enforce = Except.ok fallbackSql) ∧
      (∀ content : Option Str, llm = SqlGen.LLMOutcome.returns content →
        trimL (content.getD []) = [] →
        SqlGen.generateSqlFromPrompt prompt llm st enforce = Except.ok fallbackSql) ∧
      (∀ content : Option Str, llm = SqlGen.LLMOutcome.returns content →
        SqlGen.validateSqlSafety (trimL (content.getD [])) = false →
        SqlGen.generateSqlFromPrompt prompt llm st enforce = Except.ok fallbackSql) ∧
      (∀ content : Option Str, llm = SqlGen.LLMOutcome.returns content →
        enforce = true →
        SqlGen.checkSqlAgainstSchema st (trimL (content.getD [])) = Except.ok false →
        SqlGen.generateSqlFromPrompt prompt llm st enforce = Except.ok fallbackSql) := by
  intro prompt llm st enforce h
  refine ⟨?_, ?_, ?_, ?_, ?_⟩
  · cases llm with
    | throws => exact ⟨fallbackSql, rfl, by decide⟩
    | returns content =>
      obtain ⟨b, hb⟩ := checkSql_ok h (trimL (content.getD []))
      simp only [SqlGen.generateSqlFromPrompt]
      by_cases e0 : trimL (content.getD []) = []
      · rw [if_pos e0]
        exact ⟨fallbackSql, rfl, by decide⟩
      · rw [if_neg e0]
        by_cases e1 : SqlGen.validateSqlSafety (trimL (content.getD [])) = false
        · rw [if_pos e1]
          exact ⟨fallbackSql, rfl, by decide⟩
        · rw [if_neg e1]
          have hv : SqlGen.validateSqlSafety (trimL (content.getD [])) = true := by
            cases hvv : SqlGen.validateSqlSafety (trimL (content.getD [])) with
            | false => exact absurd hvv e1
            | true => rfl
          have hne : SqlGen.stripTrailingSemis (trimL (content.getD [])) ≠ [] := by
            have hstart := (validateSqlSafety_true_facts hv).2
            rw [trimL_idem] at hstart
            rcases hstart with hs | hs
            · obtain ⟨c, t, heq, hlow⟩ := wordAt_head (w := 's') (by decide) hs
              have hf := head_facts_of_lower (Or.inl hlow)
              rw [heq]
              exact stripTrailingSemis_ne_nil hf.1 hf.2
            · obtain ⟨c, t, heq, hlow⟩ := wordAt_head (w := 'w') (by decide) hs
              have hf := head_facts_of_lower (Or.inr hlow)
              rw [heq]
              exact stripTrailingSemis_ne_nil hf.1 hf.2
          by_cases e2 : enforce = true
          · rw [if_pos e2, hb]
            cases b with
            | false => exact ⟨fallbackSql, rfl, by decide⟩
            | true => exact ⟨_, rfl, hne⟩
          · rw [if_neg e2]
            exact ⟨_, rfl, hne⟩
  · intro he
    subst he
    rfl
  · intro content he hempty
    subst he
    simp [SqlGen.generateSqlFromPrompt, hempty]
  · intro content he hval
    subst he
    simp only [SqlGen.generateSqlFromPrompt]
    split_ifs <;> rfl
  · intro content he hen hschema
    subst he
    subst hen
    simp only [SqlGen.generateSqlFromPrompt]
    by_cases e0 : trimL (content.getD []) = []
    · rw [if_pos e0]
    · rw [if_neg e0]
      by_cases e1 : SqlGen.validateSqlSafety (trimL (content.getD [])) = false
      · rw [if_pos e1]
      · rw [if_neg e1, if_pos trivial, hschema]

/-- C3 witness: a state whose lookup succeeds with a miss and a rejected
    LLM call resolve to the fallback. -/
theorem C3_amended_witness :
    SqlGen._getCachedSchema
      { memSchema := none, memFresh := false, redis := none,
        dbConfig := false, dbRefresh := SqlGen.Lookup.throws } ≠ Except.error () ∧
    SqlGen.generateSqlFromPrompt (lstr "any prompt") SqlGen.LLMOutcome.throws
      { memSchema := none, memFresh := false, redis := none,
        dbConfig := false, dbRefresh := SqlGen.Lookup.throws } true =
      Except.ok fallbackSql := by
  refine ⟨fun hc => Except.noConfusion hc, ?_⟩
  exact (C3_amended (lstr "any prompt") SqlGen.LLMOutcome.throws
    { memSchema := none, memFresh := false, redis := none,
      dbConfig := false, dbRefresh := SqlGen.Lookup.throws } true
    (fun hc => Except.noConfusion hc)).2.1 rfl

/-! # Claim C8: idempotence of validateAndCleanSql -/

theorem fenceAt_elim {a : Char} {rest : Str} (h : fenceAt (a :: rest) = true) :
    a = btick ∧ ∃ u, rest = btick :: btick :: u := by
  match rest with
  | [] => simp [fenceAt] at h
  | [b] => simp [fenceAt] at h
  | b :: c :: u =>
    simp [fenceAt] at h
    exact ⟨h.1.1, u, by rw [h.1.2, h.2]⟩

theorem stripFencesF_head_bt :
    ∀ {fuel : Nat} {s t : Str}, stripFencesF fuel s = btick :: t → ∃ u, s = btick :: u := by
  intro fuel s t h
  match fuel, s with
  | 0, _ => simp [stripFencesF] at h
  | _ + 1, [] => simp [stripFencesF] at h
  | f + 1, a :: rest =>
    by_cases hf : fenceAt (a :: rest) = true
    · obtain ⟨ha, _, _⟩ := fenceAt_elim hf
      exact ⟨rest, by rw [ha]⟩
    · rw [stripFencesF, if_neg hf] at h
      injection h with h1 _
      exact ⟨rest, by rw [h1]⟩

theorem stripFencesF_head2_bt :
    ∀ {fuel : Nat} {s t : Str},
      stripFencesF fuel s = btick :: btick :: t → ∃ u, s = btick :: btick :: u := by
  intro fuel s t h
  match fuel, s with
  | 0, _ => simp [stripFencesF] at h
  | _ + 1, [] => simp [stripFencesF] at h
  | f + 1, a :: rest =>
    by_cases hf : fenceAt (a :: rest) = true
    · obtain ⟨ha, u, hu⟩ := fenceAt_elim hf
      exact ⟨btick :: u, by rw [ha, hu]⟩
    · rw [stripFencesF, if_neg hf] at h
      injection h with h1 h2
      obtain ⟨u, hu⟩ := stripFencesF_head_bt h2
      exact ⟨u, by rw [h1, hu]⟩

theorem stripFencesF_no_triple :
    ∀ (fuel : Nat) (s : Str), hasTriple (stripFencesF fuel s) = false := by
  intro fuel
  induction fuel with
  | zero => intro s; rfl
  | succ f ih =>
    intro s
    match s with
    | [] => rfl
    | a :: rest =>
      by_cases hf : fenceAt (a :: rest) = true
      · rw [stripFencesF, if_pos hf]
        exact ih _
      · rw [stripFencesF, if_neg hf]
        cases hx : stripFencesF f rest with
        | nil => rw [hasTriple]; simp [fenceAt, hasTriple]
        | cons b u =>
          rw [hasTriple, ← hx, ih rest, Bool.or_false]
          by_contra hfa
          rw [Bool.not_eq_false] at hfa
          obtain ⟨ha, v, hv⟩ := fenceAt_elim hfa
          obtain ⟨w, hw⟩ := stripFencesF_head2_bt hv
          apply hf
          rw [ha, hw]
          simp [fenceAt]

theorem stripFences_no_triple (s : Str) : hasTriple (stripFences s) = false :=
  stripFencesF_no_triple _ s

theorem stripFencesF_id :
    ∀ (fuel : Nat) (s : Str), s.length < fuel → hasTriple s = false →
      stripFencesF fuel s = s := by
  intro fuel
  induction fuel with
  | zero => intro s h ht; omega
  | succ f ih =>
    intro s hlen ht
    match s with
    | [] => rfl
    | a :: rest =>
      have hf : fenceAt (a :: rest) = false := by
        cases hfa : fenceAt (a :: rest) with
        | false => rfl
        | true =>
          rw [hasTriple, hfa] at ht
          simp at ht
      have ht2 : hasTriple rest = false := by
        rw [hasTriple, hf] at ht
        simpa using ht
      rw [stripFencesF, if_neg (by simp [hf])]
      rw [ih rest (by simp at hlen ⊢; omega) ht2]

theorem stripFences_id (s : Str) (h : hasTriple s = false) : stripFences s = s :=
  stripFencesF_id _ s (Nat.lt_succ_self _) h

theorem hasTriple_append_right (x y : Str) (h : hasTriple y = true) :
    hasTriple (x ++ y) = true := by
  induction x with
  | nil => simpa
  | cons a t ih =>
    rw [List.cons_append, hasTriple, ih]
    simp

theorem hasTriple_append_left (x y : Str) (h : hasTriple x = true) :
    hasTriple (x ++ y) = true := by
  induction x with
  | nil => simp [hasTriple] at h
  | cons a t ih =>
    rw [hasTriple] at h
    rcases (by simpa using h : fenceAt (a :: t) = true ∨ hasTriple t = true) with hf | htr
    · obtain ⟨ha, u, hu⟩ := fenceAt_elim hf
      rw [List.cons_append, hasTriple]
      have hfa : fenceAt (a :: (t ++ y)) = true := by
        rw [ha, hu, List.cons_append, List.cons_append]
        simp [fenceAt]
      rw [hfa]
      simp
    · rw [List.cons_append, hasTriple, ih htr]
      simp

theorem hasTriple_trimL {s : Str} (h : hasTriple (trimL s) = true) :
    hasTriple s = true := by
  have h1 : hasTriple (s.dropWhile isWS) = true := by
    rw [trimL_decomp s]
    exact hasTriple_append_left _ _ h
  rw [← List.takeWhile_append_dropWhile (p := isWS) (l := s)]
  exact hasTriple_append_right _ _ h1

theorem trimL_no_triple (s : Str) (h : hasTriple s = false) :
    hasTriple (trimL s) = false := by
  cases htr : hasTriple (trimL s) with
  | false => rfl
  | true => exact absurd (hasTriple_trimL htr) (by simp [h])

theorem validateAndCleanSql_fallback_fixed :
    validateAndCleanSql fallbackSql = fallbackSql := by
  have h1 : stripFences fallbackSql = fallbackSql := stripFences_id _ (by decide)
  simp only [validateAndCleanSql, h1]
  decide

theorem validateAndCleanSql_cases (s : Str) :
    validateAndCleanSql s = fallbackSql ∨
    (validateAndCleanSql s = trimL (stripFences s) ∧
     (isPrefixOfB (lstr "SELECT") (toUpperL (trimL (stripFences s))) = true ∨
      isPrefixOfB (lstr "WITH") (toUpperL (trimL (stripFences s))) = true) ∧
     dangerousKeywords.any
       (fun kw => isInfixOfB (' ' :: (kw ++ [' '])) (toUpperL (trimL (stripFences s)))) = false) := by
  by_cases h0 : s = []
  · left
    simp [validateAndCleanSql, h0]
  · by_cases h1 : (isPrefixOfB (lstr "SELECT") (toUpperL (trimL (stripFences s))) = true ∨
        isPrefixOfB (lstr "WITH") (toUpperL (trimL (stripFences s))) = true)
    · by_cases h2 : dangerousKeywords.any
          (fun kw => isInfixOfB (' ' :: (kw ++ [' '])) (toUpperL (trimL (stripFences s)))) = true
      · left
        simp only [validateAndCleanSql]
        rw [if_neg h0, if_neg (not_not_intro h1), if_pos h2]
      · right
        refine ⟨?_, h1, by simpa using h2⟩
        simp only [validateAndCleanSql]
        rw [if_neg h0, if_neg (not_not_intro h1), if_neg h2]
    · left
      simp only [validateAndCleanSql]
      rw [if_neg h0, if_pos h1]

/-- C8: validateAndCleanSql is idempotent: a second application returns
    the first result unchanged, both on the fallback branch and on the
    cleaned branch, because the fence removal leaves no fence opening
    behind and trimming is idempotent. -/
theorem C8_validateAndCleanSql_idempotent :
    ∀ s : Str, validateAndCleanSql (validateAndCleanSql s) = validateAndCleanSql s := by
  intro s
  rcases validateAndCleanSql_cases s with h | ⟨hv, hpre, hdang⟩
  · rw [h, validateAndCleanSql_fallback_fixed]
  · rw [hv]
    have hw_ne : trimL (stripFences s) ≠ [] := by
      intro he
      rw [he] at hpre
      rcases hpre with hp | hp <;> exact absurd hp (by decide)
    have hnt : hasTriple (trimL (stripFences s)) = false :=
      trimL_no_triple _ (stripFences_no_triple s)
    have hsf : stripFences (trimL (stripFences s)) = trimL (stripFences s) :=
      stripFences_id _ hnt
    have htr : trimL (trimL (stripFences s)) = trimL (stripFences s) := trimL_idem _
    simp only [validateAndCleanSql, hsf, htr]
    rw [if_neg hw_ne, if_neg (not_not_intro hpre), if_neg (by simp [hdang])]
